import Mathlib

/-!
Shallow embedding of the resilient API client (frontend `lib/api.ts` of the
pota repository): structured error values, the `apiRequest` retry loop with
exponential backoff, the per-endpoint retry configuration, the
`CircuitBreaker` class, the `Promise.race`-based timeout handling, and the
`useConnectionStatus` connectivity monitor.
-/

namespace Pota

/-- A structured error value. Embeds the `ApiError` class (and its
`NetworkError` / `TimeoutError` subclasses, distinguished by `name`):
fields `status`, `errorCode` and the per-instance `isRetryable` flag set by
the constructor (default `false`).  The human-readable `message` and the
free-form `details` payload are not modelled. -/
structure ApiErrorV where
  name : String
  status : Nat
  errorCode : Option String
  is_retryable : Bool
  deriving DecidableEq, Repr

/-- `new NetworkError()`: status 0, code `network_error`, retryable `true`. -/
def networkError : ApiErrorV :=
  { name := "NetworkError", status := 0, errorCode := some "network_error",
    is_retryable := true }

/-- `new TimeoutError()`: status 408, code `timeout_error`, retryable `true`. -/
def timeoutError : ApiErrorV :=
  { name := "TimeoutError", status := 408, errorCode := some "timeout_error",
    is_retryable := true }

/-- `new ApiError('Circuit breaker is open', 503, 'circuit_breaker_open')`:
the constructor's `isRetryable` parameter is omitted, so it defaults to
`false`. -/
def circuitOpenError : ApiErrorV :=
  { name := "ApiError", status := 503, errorCode := some "circuit_breaker_open",
    is_retryable := false }

/-- The `ApiError` thrown when a 2xx response body fails `JSON.parse`:
code `parse_error`, `isRetryable` defaulting to `false`. -/
def parseFailureError (status : Nat) : ApiErrorV :=
  { name := "ApiError", status := status, errorCode := some "parse_error",
    is_retryable := false }

/-- The status classification computed inside the retry loop:
`response.status >= 500 || response.status === 429 || response.status === 408`. -/
def isRetryableStatus (status : Nat) : Bool :=
  decide (500 ≤ status) || status == 429 || status == 408

/-- The `ApiError` built for a non-ok HTTP response of the given status; its
retryable flag is `isRetryableStatus status`.  (The optional error-envelope
code from the response body is not modelled.) -/
def httpStatusError (status : Nat) : ApiErrorV :=
  { name := "ApiError", status := status, errorCode := none,
    is_retryable := isRetryableStatus status }

/-- The static classifier `ApiError.isRetryable` restricted to `ApiError`
instances: `error.isRetryable || status >= 500 || status === 429 ||
status === 408 || status === 0`. -/
def isRetryableStatic (e : ApiErrorV) : Bool :=
  e.is_retryable || decide (500 ≤ e.status) || e.status == 429 ||
    e.status == 408 || e.status == 0

/-- What one iteration of the `apiRequest` retry loop observes once the
`Promise.race` of the fetch and the deadline has settled:
* `resp status parseOk` — the fetch resolved with an ok (2xx) response of
  this status whose body does (`parseOk = true`) or does not parse;
* `httpErr status` — the fetch resolved with `response.ok` false;
* `timeout` — the deadline promise won the race (`TimeoutError` thrown);
* `netFail` — the fetch rejected with `TypeError('Failed to fetch')`. -/
inductive AttemptLabel where
  | resp (status : Nat) (parseOk : Bool)
  | httpErr (status : Nat)
  | timeout
  | netFail
  deriving DecidableEq, Repr

/-- The backoff entry the loop records before the next attempt after the
given label failed at index `attempt`: thrown errors (timeout / network)
pass through the catch block and wait `retryDelay * 2 ^ attempt` ms
(line `const delayMs = retryDelay * Math.pow(2, attempt)`), while a
retryable non-ok HTTP response completes the try block normally and loops
back with no delay call at all (`none`). -/
def backoffOf (l : AttemptLabel) (retryDelay attempt : Nat) : Option Nat :=
  match l with
  | .httpErr _ => none
  | _ => some (retryDelay * 2 ^ attempt)

/-- The body of `for (let attempt = 0; attempt <= retries; attempt++)` in
`apiRequest`, run from index `attempt` with `fuel` loop iterations left
(`fuel = retries + 1 - attempt` at every reachable call; the source's
`attempt === retries` exit test is written `¬ attempt < retries`, equivalent
under the loop invariant `attempt ≤ retries`).  Returns the final outcome,
the number of attempts performed, and the list whose entry `i` is the
backoff recorded between attempt `attempt + i` and the next one.
The `fuel = 0` value is the source's unreachable post-loop fallback
`throw ... new NetworkError()`. -/
def runFrom (res : Nat → AttemptLabel) (retries retryDelay : Nat) :
    Nat → Nat → Except ApiErrorV Unit × Nat × List (Option Nat)
  | _, 0 => (Except.error networkError, 0, [])
  | attempt, fuel + 1 =>
    match res attempt with
    | .resp status parseOk =>
      -- ok response: return parsed data, or throw the non-retryable
      -- parse-error ApiError, rethrown at once by the catch block
      if parseOk then (Except.ok (), 1, [])
      else (Except.error (parseFailureError status), 1, [])
    | .httpErr status =>
      -- non-ok response: non-retryable statuses throw (and the catch block
      -- rethrows); retryable ones fall through the try block and loop back
      -- immediately; at the last index the error is thrown and surfaced
      if isRetryableStatus status = true ∧ attempt < retries then
        let r := runFrom res retries retryDelay (attempt + 1) fuel
        (r.1, r.2.1 + 1, none :: r.2.2)
      else (Except.error (httpStatusError status), 1, [])
    | .timeout =>
      if attempt < retries then
        let r := runFrom res retries retryDelay (attempt + 1) fuel
        (r.1, r.2.1 + 1, some (retryDelay * 2 ^ attempt) :: r.2.2)
      else (Except.error timeoutError, 1, [])
    | .netFail =>
      if attempt < retries then
        let r := runFrom res retries retryDelay (attempt + 1) fuel
        (r.1, r.2.1 + 1, some (retryDelay * 2 ^ attempt) :: r.2.2)
      else (Except.error networkError, 1, [])

/-- `apiRequest endpoint options`, given the per-attempt observations
`res`, the resolved `retries` and `retryDelay`.  The loop admits at most
`retries + 1` iterations. -/
def apiRequest (res : Nat → AttemptLabel) (retries retryDelay : Nat) :
    Except ApiErrorV Unit × Nat × List (Option Nat) :=
  runFrom res retries retryDelay 0 (retries + 1)

/-- One entry of the `RETRY_CONFIG` table. -/
structure RetryConf where
  retries : Nat
  delay : Nat
  deriving DecidableEq, Repr

/-- The `RETRY_CONFIG` lookup table, keyed by endpoint path. -/
def RETRY_CONFIG (endpoint : String) : Option RetryConf :=
  if endpoint = "/api/v1/health" then some { retries := 2, delay := 500 }
  else if endpoint = "/api/v1/suggestions" then some { retries := 3, delay := 2000 }
  else if endpoint = "/api/v1/details" then some { retries := 3, delay := 2000 }
  else none

/-- `DEFAULT_RETRY_COUNT`. -/
def DEFAULT_RETRY_COUNT : Nat := 3

/-- `DEFAULT_RETRY_DELAY` (ms). -/
def DEFAULT_RETRY_DELAY : Nat := 1000

/-- `retries = RETRY_CONFIG[endpoint]?.retries ?? DEFAULT_RETRY_COUNT`. -/
def retriesFor (endpoint : String) : Nat :=
  ((RETRY_CONFIG endpoint).map RetryConf.retries).getD DEFAULT_RETRY_COUNT

/-- `retryDelay = RETRY_CONFIG[endpoint]?.delay ?? DEFAULT_RETRY_DELAY`. -/
def retryDelayFor (endpoint : String) : Nat :=
  ((RETRY_CONFIG endpoint).map RetryConf.delay).getD DEFAULT_RETRY_DELAY

example : retriesFor "/api/v1/health" = 2 := by decide
example : retryDelayFor "/api/v1/health" = 500 := by decide
example : retriesFor "/api/v1/other" = 3 := by decide

-- sanity: three consecutive 500 responses on the health configuration
example :
    apiRequest (fun _ => .httpErr 500) 2 500 =
      (Except.error (httpStatusError 500), 3, [none, none]) := rfl

-- sanity: timeouts do go through the exponential backoff path
example :
    apiRequest (fun _ => .timeout) 2 500 =
      (Except.error timeoutError, 3, [some 500, some 1000]) := rfl

-- sanity: a 404 on the first attempt stops the loop at once
example :
    apiRequest (fun _ => .httpErr 404) 3 1000 =
      (Except.error (httpStatusError 404), 1, []) := rfl

/-! ### Circuit breaker -/

/-- The three values of the breaker's `state` field. -/
inductive BreakerState where
  | CLOSED
  | OPEN
  | HALF_OPEN
  deriving DecidableEq, Repr

/-- The `CircuitBreaker` class: mutable fields `failures`,
`lastFailureTime`, `state` and the constructor parameters `threshold`,
`timeout` (the cooldown, ms).  Timestamps (`Date.now()`) are `Nat`
milliseconds. -/
structure CircuitBreaker where
  failures : Nat
  lastFailureTime : Nat
  state : BreakerState
  threshold : Nat
  timeout : Nat
  deriving DecidableEq, Repr

/-- `new CircuitBreaker(threshold, timeout)`: failures 0, lastFailureTime 0,
state CLOSED. -/
def CircuitBreaker.new (threshold timeout : Nat) : CircuitBreaker :=
  { failures := 0, lastFailureTime := 0, state := .CLOSED,
    threshold := threshold, timeout := timeout }

/-- `onSuccess`: reset `failures` to 0 and close the breaker. -/
def CircuitBreaker.onSuccess (cb : CircuitBreaker) : CircuitBreaker :=
  { cb with failures := 0, state := .CLOSED }

/-- `onFailure` at time `now`: increment `failures`, stamp
`lastFailureTime`, and set the state to OPEN when the incremented count
reaches the threshold (`this.failures >= this.threshold`); otherwise the
state is left as it was. -/
def CircuitBreaker.onFailure (cb : CircuitBreaker) (now : Nat) : CircuitBreaker :=
  { cb with
    failures := cb.failures + 1
    lastFailureTime := now
    state := if cb.threshold ≤ cb.failures + 1 then .OPEN else cb.state }

/-- `execute(fn)` at time `now` (`Date.now()`): when OPEN, either move to
HALF_OPEN (if `now - lastFailureTime > timeout`) and proceed, or throw the
circuit-open `ApiError` without invoking `fn`.  When the call proceeds,
`fn`'s outcome drives `onSuccess` / `onFailure` and is passed through.
The returned `Bool` records whether `fn` was invoked. -/
def CircuitBreaker.execute (cb : CircuitBreaker) (now : Nat)
    (fn : Unit → Except ApiErrorV Unit) :
    CircuitBreaker × Except ApiErrorV Unit × Bool :=
  if cb.state = .OPEN ∧ ¬ cb.timeout < now - cb.lastFailureTime then
    (cb, Except.error circuitOpenError, false)
  else
    let cb1 := if cb.state = .OPEN then { cb with state := .HALF_OPEN } else cb
    match fn () with
    | .ok a => (cb1.onSuccess, .ok a, true)
    | .error e => (cb1.onFailure now, .error e, true)

/-- One complete public-client call at time `now`: the breaker wraps the
whole `apiRequest` retry loop (`circuitBreakers.X.execute(() =>
apiRequest(...))`).  Returns the breaker after the call, the surfaced
outcome, and the number of network attempts performed — `0` whenever the
breaker rejected the call, since `fn` (and hence the loop) never runs. -/
def clientCall (cb : CircuitBreaker) (now : Nat) (res : Nat → AttemptLabel)
    (retries retryDelay : Nat) :
    CircuitBreaker × Except ApiErrorV Unit × Nat :=
  let r := apiRequest res retries retryDelay
  let e := cb.execute now (fun _ => r.1)
  (e.1, e.2.1, if e.2.2 then r.2.1 else 0)

/-- Folding a sequence of calls that all fail (the underlying operation
rejects with `networkError` at the listed timestamps) through one breaker. -/
def applyFailures (cb : CircuitBreaker) (ts : List Nat) : CircuitBreaker :=
  ts.foldl (fun c t => (c.execute t (fun _ => Except.error networkError)).1) cb

/-- The invariant relating the breaker's phase to its counter: a breaker
that is OPEN or HALF_OPEN has accumulated at least `threshold` failures.
It holds for `CircuitBreaker.new` and is preserved by `execute`. -/
def CBInv (cb : CircuitBreaker) : Prop :=
  cb.state = .OPEN ∨ cb.state = .HALF_OPEN → cb.threshold ≤ cb.failures

/-! ### Timeout race -/

/-- How the raw fetch promise settles, if left to run to completion. -/
inductive FetchOutcome where
  | resp (status : Nat) (parseOk : Bool)
  | httpErr (status : Nat)
  | netFail
  deriving DecidableEq, Repr

/-- The attempt label observed if the fetch settles first. -/
def labelOfFetch : FetchOutcome → AttemptLabel
  | .resp s p => .resp s p
  | .httpErr s => .httpErr s
  | .netFail => .netFail

/-- `Promise.race([fetchPromise, createTimeoutPromise(timeout)])`, modelled
on the single-threaded event loop by settle times measured from the start of
the attempt: `createTimeoutPromise` rejects with `new TimeoutError()` at
`timeoutMs`, and whichever promise settles first determines the attempt's
outcome (a tie goes to the fetch, which was created first). -/
def promiseRace (fetchSettleAt : Nat) (fo : FetchOutcome) (timeoutMs : Nat) :
    AttemptLabel :=
  if fetchSettleAt ≤ timeoutMs then labelOfFetch fo else .timeout

/-! ### Connectivity monitor -/

/-- What one run of the health-polling effect in `useConnectionStatus`
installs (the effect re-runs on every `isOnline` transition, its cleanup
clearing the previous interval). -/
structure ConnEffect where
  immediateCheck : Bool
  intervalMs : Option Nat
  setsApiHealthyFalse : Bool
  deriving DecidableEq, Repr

/-- The body of the `[isOnline]`-dependent effect: while online, run
`checkHealth()` at once and register `setInterval(checkHealth, 30000)`;
while offline, set `isApiHealthy` to `false` and register nothing. -/
def connectionEffect (isOnline : Bool) : ConnEffect :=
  if isOnline then
    { immediateCheck := true, intervalMs := some 30000,
      setsApiHealthyFalse := false }
  else
    { immediateCheck := false, intervalMs := none,
      setsApiHealthyFalse := true }

/-- A registered `setInterval(f, periodMs)` fires at `registeredAt +
periodMs * k` for every `k ≥ 1` while it stays installed. -/
def setIntervalFires (registeredAt periodMs t : Nat) : Prop :=
  ∃ k, 0 < k ∧ t = registeredAt + periodMs * k

/-- The monitor probes health at time `t` during an online stretch that
began at `onlineAt`: either the immediate probe the effect makes on the
transition, or a firing of the interval it registered. -/
def monitorChecksAt (onlineAt t : Nat) : Prop :=
  ((connectionEffect true).immediateCheck = true ∧ t = onlineAt) ∨
  ∃ p, (connectionEffect true).intervalMs = some p ∧ setIntervalFires onlineAt p t

/-! ### Lemmas about the retry loop -/

/-- The loop performs at most `fuel` attempts. -/
theorem runFrom_attempts_le (res : Nat → AttemptLabel) (retries d : Nat) :
    ∀ fuel attempt, (runFrom res retries d attempt fuel).2.1 ≤ fuel := by
  intro fuel
  induction fuel with
  | zero => intro attempt; simp [runFrom]
  | succ n ih =>
    intro attempt
    cases h : res attempt with
    | resp status parseOk =>
      cases parseOk <;> simp [runFrom, h]
    | httpErr status =>
      by_cases hc : isRetryableStatus status = true ∧ attempt < retries
      · have := ih (attempt + 1)
        simp only [runFrom, h, if_pos hc]
        omega
      · simp [runFrom, h, hc]
    | timeout =>
      by_cases hc : attempt < retries
      · have := ih (attempt + 1)
        simp only [runFrom, h, if_pos hc]
        omega
      · simp [runFrom, h, hc]
    | netFail =>
      by_cases hc : attempt < retries
      · have := ih (attempt + 1)
        simp only [runFrom, h, if_pos hc]
        omega
      · simp [runFrom, h, hc]

/-- `apiRequest` makes at most `retries + 1` attempts. -/
theorem apiRequest_attempts_le (res : Nat → AttemptLabel) (retries d : Nat) :
    (apiRequest res retries d).2.1 ≤ retries + 1 :=
  runFrom_attempts_le res retries d (retries + 1) 0

/-- With enough fuel, the number of attempts is one more than the number of
recorded backoff slots. -/
theorem runFrom_attempts_eq_delays (res : Nat → AttemptLabel) (retries d : Nat) :
    ∀ fuel attempt, attempt ≤ retries → retries + 1 ≤ attempt + fuel →
      (runFrom res retries d attempt fuel).2.1 =
        (runFrom res retries d attempt fuel).2.2.length + 1 := by
  intro fuel
  induction fuel with
  | zero => intro attempt h1 h2; omega
  | succ n ih =>
    intro attempt h1 h2
    cases h : res attempt with
    | resp status parseOk =>
      cases parseOk <;> simp [runFrom, h]
    | httpErr status =>
      by_cases hc : isRetryableStatus status = true ∧ attempt < retries
      · have := ih (attempt + 1) (by omega) (by omega)
        simp only [runFrom, h, if_pos hc, List.length_cons]
        omega
      · simp [runFrom, h, hc]
    | timeout =>
      by_cases hc : attempt < retries
      · have := ih (attempt + 1) (by omega) (by omega)
        simp only [runFrom, h, if_pos hc, List.length_cons]
        omega
      · simp [runFrom, h, hc]
    | netFail =>
      by_cases hc : attempt < retries
      · have := ih (attempt + 1) (by omega) (by omega)
        simp only [runFrom, h, if_pos hc, List.length_cons]
        omega
      · simp [runFrom, h, hc]

/-- Every recorded backoff slot `i` holds exactly `backoffOf` of the label
observed at attempt `attempt + i`, and such a slot exists only when that
attempt index is below `retries`. -/
theorem runFrom_delays_get (res : Nat → AttemptLabel) (retries d : Nat) :
    ∀ fuel attempt i x,
      (runFrom res retries d attempt fuel).2.2.get? i = some x →
      x = backoffOf (res (attempt + i)) d (attempt + i) ∧ attempt + i < retries := by
  intro fuel
  induction fuel with
  | zero => intro attempt i x hx; simp [runFrom] at hx
  | succ n ih =>
    intro attempt i x hx
    cases h : res attempt with
    | resp status parseOk =>
      cases parseOk <;> simp [runFrom, h] at hx
    | httpErr status =>
      by_cases hc : isRetryableStatus status = true ∧ attempt < retries
      · simp only [runFrom, h, if_pos hc] at hx
        cases i with
        | zero =>
          simp [List.get?] at hx
          subst hx
          simpa [backoffOf, h] using hc.2
        | succ j =>
          simp only [List.get?] at hx
          have hrec := ih (attempt + 1) j x hx
          have harith : attempt + 1 + j = attempt + (j + 1) := by omega
          rw [harith] at hrec
          exact hrec
      · simp [runFrom, h, hc] at hx
    | timeout =>
      by_cases hc : attempt < retries
      · simp only [runFrom, h, if_pos hc] at hx
        cases i with
        | zero =>
          simp [List.get?] at hx
          subst hx
          simpa [backoffOf, h] using hc
        | succ j =>
          simp only [List.get?] at hx
          have hrec := ih (attempt + 1) j x hx
          have harith : attempt + 1 + j = attempt + (j + 1) := by omega
          rw [harith] at hrec
          exact hrec
      · simp [runFrom, h, hc] at hx
    | netFail =>
      by_cases hc : attempt < retries
      · simp only [runFrom, h, if_pos hc] at hx
        cases i with
        | zero =>
          simp [List.get?] at hx
          subst hx
          simpa [backoffOf, h] using hc
        | succ j =>
          simp only [List.get?] at hx
          have hrec := ih (attempt + 1) j x hx
          have harith : attempt + 1 + j = attempt + (j + 1) := by omega
          rw [harith] at hrec
          exact hrec
      · simp [runFrom, h, hc] at hx

/-! ### Lemmas about the circuit breaker -/

/-- One failing call on a CLOSED breaker just runs `onFailure`. -/
theorem execute_closed_failure (cb : CircuitBreaker) (t : Nat)
    (hst : cb.state = .CLOSED) :
    (cb.execute t (fun _ => Except.error networkError)).1 = cb.onFailure t := by
  simp [CircuitBreaker.execute, hst]

/-- Folding consecutive failing calls over a CLOSED breaker whose count is
still strictly below the threshold: the failures add up, and the breaker
stays CLOSED strictly below the threshold and is OPEN exactly when the
threshold is reached. -/
theorem applyFailures_closed (ts : List Nat) :
    ∀ cb : CircuitBreaker, cb.state = .CLOSED → cb.failures < cb.threshold →
      cb.failures + ts.length ≤ cb.threshold →
      (applyFailures cb ts).failures = cb.failures + ts.length ∧
      (cb.failures + ts.length < cb.threshold → (applyFailures cb ts).state = .CLOSED) ∧
      (cb.failures + ts.length = cb.threshold → (applyFailures cb ts).state = .OPEN) := by
  induction ts with
  | nil =>
    intro cb hst hlt _
    refine ⟨by simp [applyFailures], fun _ => by simpa [applyFailures] using hst,
      fun he => ?_⟩
    simp only [List.length_nil, Nat.add_zero] at he
    exact absurd he (by omega)
  | cons t ts ih =>
    intro cb hst hlt hle
    have hlen : (t :: ts).length = ts.length + 1 := rfl
    have hstep : applyFailures cb (t :: ts) = applyFailures (cb.onFailure t) ts := by
      simp [applyFailures, execute_closed_failure cb t hst]
    have hf1 : (cb.onFailure t).failures = cb.failures + 1 := rfl
    have hth1 : (cb.onFailure t).threshold = cb.threshold := rfl
    by_cases hth : cb.threshold ≤ cb.failures + 1
    · -- the threshold is reached by this very failure, so `ts` must be empty
      have hts0 : ts = [] := by
        refine List.length_eq_zero.mp ?_
        rw [hlen] at hle; omega
      subst hts0
      have hopen : (cb.onFailure t).state = .OPEN := by
        simp [CircuitBreaker.onFailure, if_pos hth]
      have happ : applyFailures (cb.onFailure t) [] = cb.onFailure t := rfl
      rw [hstep, happ]
      refine ⟨by rw [hf1]; simp, fun hck => ?_, fun _ => hopen⟩
      exact absurd hck (by simp only [List.length_cons, List.length_nil]; omega)
    · -- still below the threshold: the breaker stays CLOSED, recurse
      have hcl1 : (cb.onFailure t).state = .CLOSED := by
        simp [CircuitBreaker.onFailure, if_neg hth, hst]
      have hrec := ih (cb.onFailure t) hcl1
        (by rw [hf1, hth1]; omega)
        (by rw [hf1, hth1]; rw [hlen] at hle; omega)
      rw [hf1, hth1] at hrec
      rw [hstep]
      refine ⟨?_, fun hck => ?_, fun he => ?_⟩
      · rw [hrec.1, hlen]; omega
      · exact hrec.2.1 (by rw [hlen] at hck; omega)
      · exact hrec.2.2 (by rw [hlen] at he; omega)

/-- `execute` preserves the phase/counter invariant `CBInv`. -/
theorem execute_preserves_inv (cb : CircuitBreaker) (now : Nat)
    (fn : Unit → Except ApiErrorV Unit) (hinv : CBInv cb) :
    CBInv (cb.execute now fn).1 := by
  by_cases hrej : cb.state = .OPEN ∧ ¬ cb.timeout < now - cb.lastFailureTime
  · simpa [CircuitBreaker.execute, hrej] using hinv
  · by_cases hop : cb.state = .OPEN
    · have hTF : cb.threshold ≤ cb.failures := hinv (Or.inl hop)
      simp only [CircuitBreaker.execute, if_neg hrej, if_pos hop]
      cases fn () with
      | ok a => intro hc; simp [CircuitBreaker.onSuccess] at hc
      | error e =>
        intro _
        simp only [CircuitBreaker.onFailure]
        omega
    · simp only [CircuitBreaker.execute, if_neg hrej, if_neg hop]
      cases fn () with
      | ok a => intro hc; simp [CircuitBreaker.onSuccess] at hc
      | error e =>
        intro hc
        simp only [CircuitBreaker.onFailure] at hc ⊢
        by_cases hth : cb.threshold ≤ cb.failures + 1
        · omega
        · rw [if_neg hth] at hc
          have := hinv hc
          omega

/-! ### Claim theorems -/

/-- A label after which the retry loop continues could not retry when the
attempt failed with a non-retryable outcome. -/
def isNonRetryableLabel (l : AttemptLabel) : Prop :=
  (∃ s, l = .httpErr s ∧ isRetryableStatus s = false) ∨ ∃ s, l = .resp s false

/-- C1 counterexample: with the health configuration (maxAttempts = 2,
baseDelayMs = 500), attempt 0 fails with the retryable status 500 and
0 < maxAttempts, a further attempt is made (3 attempts in total), yet the
slot before attempt 1 holds no delay at all (`none`) rather than the
claimed `baseDelayMs * 2 ^ 0 = 500`: retryable HTTP-status failures loop
back without entering the backoff path. -/
theorem retry_delay_counterexample :
    (apiRequest (fun _ => AttemptLabel.httpErr 500) 2 500).2.2.get? 0 = some none ∧
    (apiRequest (fun _ => AttemptLabel.httpErr 500) 2 500).2.1 = 3 ∧
    ((none : Option Nat) = some (500 * 2 ^ 0) → False) :=
  ⟨rfl, rfl, by decide⟩

/-- C1 (amended): whenever the loop records a backoff slot before attempt
`i + 1`, that slot equals `baseDelayMs * 2 ^ i` for an attempt that failed
with a thrown error (timeout or network failure) and is empty (no delay,
immediate retry) for a retryable HTTP-status failure; a slot exists only
while `i < maxAttempts`, a further attempt is then made, and the total
number of attempts never exceeds `maxAttempts + 1`. -/
theorem apiRequest_backoff_schedule
    (res : Nat → AttemptLabel) (retries retryDelay i : Nat) (x : Option Nat)
    (h : (apiRequest res retries retryDelay).2.2.get? i = some x) :
    x = backoffOf (res i) retryDelay i ∧
    i < retries ∧
    i + 2 ≤ (apiRequest res retries retryDelay).2.1 ∧
    (apiRequest res retries retryDelay).2.1 ≤ retries + 1 := by
  have hget := runFrom_delays_get res retries retryDelay (retries + 1) 0 i x h
  simp only [Nat.zero_add] at hget
  have hlen : i < (apiRequest res retries retryDelay).2.2.length := by
    by_contra hcon
    rw [List.get?_eq_none.mpr (by omega)] at h
    exact Option.noConfusion h
  have heq := runFrom_attempts_eq_delays res retries retryDelay (retries + 1) 0
    (Nat.zero_le retries) (by omega)
  exact ⟨hget.1, hget.2, by
    have : (apiRequest res retries retryDelay).2.1 =
        (apiRequest res retries retryDelay).2.2.length + 1 := heq
    omega, apiRequest_attempts_le res retries retryDelay⟩

/-- C1 witness: a run of two timeouts then exhaustion under the health
configuration; the slot before attempt 1 is the computed backoff 500 ms. -/
theorem apiRequest_backoff_schedule_witness :
    some (500 : Nat) = backoffOf ((fun _ => AttemptLabel.timeout) 0) 500 0 ∧
    0 < 2 ∧
    0 + 2 ≤ (apiRequest (fun _ => AttemptLabel.timeout) 2 500).2.1 ∧
    (apiRequest (fun _ => AttemptLabel.timeout) 2 500).2.1 ≤ 2 + 1 :=
  apiRequest_backoff_schedule (fun _ => AttemptLabel.timeout) 2 500 0 (some 500) rfl

/-- C2 counterexample: the health configuration resolves to retries = 2, so
three consecutive HTTP 500 responses drive the loop through 3 attempts, not
the claimed 2. -/
theorem health_scenario_counterexample :
    retriesFor "/api/v1/health" = 2 ∧
    (apiRequest (fun _ => AttemptLabel.httpErr 500)
      (retriesFor "/api/v1/health") (retryDelayFor "/api/v1/health")).2.1 = 3 ∧
    (3 : Nat) ≠ 2 :=
  ⟨rfl, rfl, by decide⟩

/-- C2 (amended): under the health configuration (retries = 2, delay = 500)
three consecutive HTTP 500 responses produce exactly 3 attempts, retried
back-to-back with no inserted delay, after which the surfaced error is the
retryable status-500 server error. -/
theorem health_scenario_trace :
    apiRequest (fun _ => AttemptLabel.httpErr 500)
        (retriesFor "/api/v1/health") (retryDelayFor "/api/v1/health") =
      (Except.error (httpStatusError 500), 3, [none, none]) ∧
    (httpStatusError 500).status = 500 ∧
    (httpStatusError 500).is_retryable = true :=
  ⟨rfl, rfl, rfl⟩

/-- C5: when the first attempt fails with a non-retryable outcome (a 4xx
other than 408/429, or a body that fails to parse), the loop stops after
exactly one attempt, inserts no backoff delay, and surfaces an error whose
retryable flag is false.  (A circuit-open rejection never reaches this
loop at all: the breaker throws it before invoking `apiRequest`.) -/
theorem nonretryable_first_occurrence (res : Nat → AttemptLabel)
    (retries d : Nat) (h : isNonRetryableLabel (res 0)) :
    (apiRequest res retries d).2.1 = 1 ∧
    (apiRequest res retries d).2.2 = [] ∧
    ∃ e, (apiRequest res retries d).1 = Except.error e ∧ e.is_retryable = false := by
  rcases h with ⟨s, hs, hnr⟩ | ⟨s, hs⟩
  · refine ⟨?_, ?_, httpStatusError s, ?_, ?_⟩ <;>
      simp [apiRequest, runFrom, hs, hnr, httpStatusError]
  · refine ⟨?_, ?_, parseFailureError s, ?_, ?_⟩ <;>
      simp [apiRequest, runFrom, hs, parseFailureError]

/-- C5 witness: a single HTTP 404 response under the default configuration
(retries = 3): one attempt, no delay, non-retryable surfaced error. -/
theorem nonretryable_first_occurrence_witness :
    (apiRequest (fun _ => AttemptLabel.httpErr 404) 3 1000).2.1 = 1 ∧
    (apiRequest (fun _ => AttemptLabel.httpErr 404) 3 1000).2.2 = [] ∧
    ∃ e, (apiRequest (fun _ => AttemptLabel.httpErr 404) 3 1000).1 =
        Except.error e ∧ e.is_retryable = false :=
  nonretryable_first_occurrence (fun _ => AttemptLabel.httpErr 404) 3 1000
    (Or.inl ⟨404, rfl, rfl⟩)

/-- C6: the error taxonomy.  Statuses 500-599, 429 and 408 classify as
retryable; any other 4xx status classifies as not retryable (the
`ClientError` case); a connection-level failure yields the retryable
status-0 `NetworkError`; an unparseable body yields the non-retryable
`parse_error` `ApiError`; and the single-attempt loop surfaces exactly
those error values. -/
theorem error_taxonomy (s5 s4 st d : Nat)
    (h5a : 500 ≤ s5) (h5b : s5 ≤ 599)
    (h4a : 400 ≤ s4) (h4b : s4 ≤ 499) (h4c : s4 ≠ 408) (h4d : s4 ≠ 429) :
    isRetryableStatus s5 = true ∧
    isRetryableStatus 429 = true ∧
    isRetryableStatus 408 = true ∧
    isRetryableStatus s4 = false ∧
    (httpStatusError s5).is_retryable = true ∧
    (httpStatusError s4).is_retryable = false ∧
    networkError.is_retryable = true ∧
    networkError.status = 0 ∧
    (parseFailureError st).is_retryable = false ∧
    (apiRequest (fun _ => AttemptLabel.netFail) 0 d).1 = Except.error networkError ∧
    (apiRequest (fun _ => AttemptLabel.resp st false) 0 d).1 =
      Except.error (parseFailureError st) := by
  have hr5 : isRetryableStatus s5 = true := by
    simp only [isRetryableStatus, Bool.or_eq_true, decide_eq_true_eq, beq_iff_eq]
    omega
  have hr4 : isRetryableStatus s4 = false := by
    simp only [isRetryableStatus, Bool.or_eq_false_iff, decide_eq_false_iff_not,
      beq_eq_false_iff_ne, ne_eq]
    omega
  refine ⟨hr5, by decide, by decide, hr4, ?_, ?_, rfl, rfl, rfl, rfl, rfl⟩
  · simp [httpStatusError, hr5]
  · simp [httpStatusError, hr4]

/-- C6 witness: concrete instances, status 503 retryable and status 404 a
non-retryable client error. -/
theorem error_taxonomy_witness :
    isRetryableStatus 503 = true ∧
    isRetryableStatus 429 = true ∧
    isRetryableStatus 408 = true ∧
    isRetryableStatus 404 = false ∧
    (httpStatusError 503).is_retryable = true ∧
    (httpStatusError 404).is_retryable = false ∧
    networkError.is_retryable = true ∧
    networkError.status = 0 ∧
    (parseFailureError 200).is_retryable = false ∧
    (apiRequest (fun _ => AttemptLabel.netFail) 0 1000).1 =
      Except.error networkError ∧
    (apiRequest (fun _ => AttemptLabel.resp 200 false) 0 1000).1 =
      Except.error (parseFailureError 200) :=
  error_taxonomy 503 404 200 1000 (by decide) (by decide) (by decide) (by decide)
    (by decide) (by decide)

/-- C3: starting from a fresh breaker, exactly `threshold` consecutive
failures open it (any strict prefix leaves it CLOSED), and any OPEN breaker
whose cooldown has not yet expired (`now - lastFailureTime ≤ timeout`)
rejects a call unchanged with the circuit-open error, performing zero
network attempts. -/
theorem breaker_opens_and_rejects (threshold cooldown : Nat) (ts : List Nat)
    (k : Nat) (cb2 : CircuitBreaker) (now : Nat) (res : Nat → AttemptLabel)
    (retries d : Nat)
    (hth : 0 < threshold) (hlen : ts.length = threshold) (hk : k < threshold)
    (hopen : cb2.state = .OPEN)
    (hcool : now - cb2.lastFailureTime ≤ cb2.timeout) :
    (applyFailures (CircuitBreaker.new threshold cooldown) ts).state = .OPEN ∧
    (applyFailures (CircuitBreaker.new threshold cooldown) (ts.take k)).state =
      .CLOSED ∧
    clientCall cb2 now res retries d = (cb2, Except.error circuitOpenError, 0) := by
  have hfull := applyFailures_closed ts (CircuitBreaker.new threshold cooldown)
    rfl hth (by simp [CircuitBreaker.new, hlen])
  have htake := applyFailures_closed (ts.take k)
    (CircuitBreaker.new threshold cooldown) rfl hth
    (by simp [CircuitBreaker.new]; omega)
  refine ⟨?_, ?_, ?_⟩
  · exact hfull.2.2 (by simp [CircuitBreaker.new, hlen])
  · refine htake.2.1 ?_
    have : (ts.take k).length = min k ts.length := List.length_take k ts
    simp [CircuitBreaker.new]
    omega
  · have hrej : cb2.state = .OPEN ∧ ¬ cb2.timeout < now - cb2.lastFailureTime :=
      ⟨hopen, by omega⟩
    simp [clientCall, CircuitBreaker.execute, hrej]

/-- C3 witness: threshold 3 / cooldown 30000 (the health breaker tuning);
three failures open the breaker, two leave it CLOSED, and an OPEN breaker
probed 1000 ms after its last failure rejects with zero attempts. -/
theorem breaker_opens_and_rejects_witness :
    (applyFailures (CircuitBreaker.new 3 30000) [10, 20, 30]).state =
      BreakerState.OPEN ∧
    (applyFailures (CircuitBreaker.new 3 30000)
      ([10, 20, 30].take 2)).state = BreakerState.CLOSED ∧
    clientCall ⟨3, 30, .OPEN, 3, 30000⟩ 1030 (fun _ => AttemptLabel.httpErr 500)
        2 500 =
      (⟨3, 30, .OPEN, 3, 30000⟩, Except.error circuitOpenError, 0) :=
  breaker_opens_and_rejects 3 30000 [10, 20, 30] 2 ⟨3, 30, .OPEN, 3, 30000⟩
    1030 (fun _ => AttemptLabel.httpErr 500) 2 500 (by decide) rfl (by decide)
    rfl (by decide)

/-- C4: an OPEN breaker whose cooldown has expired
(`now - lastFailureTime > timeout`) admits exactly the one trial call
(passing through HALF_OPEN inside `execute`): a successful trial closes the
breaker and resets `failures` to 0, and a failing trial reopens it with
`lastFailureTime` restamped to `now`, restarting the cooldown clock.  The
hypothesis `threshold ≤ failures` is the invariant `CBInv` satisfied by
every breaker reachable from `CircuitBreaker.new`, as the last two
conjuncts show. -/
theorem breaker_halfopen_trial (cb : CircuitBreaker) (now : Nat) (e : ApiErrorV)
    (hopen : cb.state = .OPEN) (hinv : cb.threshold ≤ cb.failures)
    (hcool : cb.timeout < now - cb.lastFailureTime) :
    ((cb.execute now (fun _ => Except.ok ())).2.2 = true ∧
     (cb.execute now (fun _ => Except.ok ())).1.state = .CLOSED ∧
     (cb.execute now (fun _ => Except.ok ())).1.failures = 0) ∧
    ((cb.execute now (fun _ => Except.error e)).2.2 = true ∧
     (cb.execute now (fun _ => Except.error e)).1.state = .OPEN ∧
     (cb.execute now (fun _ => Except.error e)).1.lastFailureTime = now) ∧
    (∀ c : CircuitBreaker, ∀ n : Nat, ∀ fn, CBInv c → CBInv (c.execute n fn).1) ∧
    CBInv (CircuitBreaker.new cb.threshold cb.timeout) := by
  have hrej : ¬ (cb.state = .OPEN ∧ ¬ cb.timeout < now - cb.lastFailureTime) := by
    intro hc; exact hc.2 hcool
  have hth2 : cb.threshold ≤ cb.failures + 1 := Nat.le_succ_of_le hinv
  refine ⟨?_, ?_, execute_preserves_inv, ?_⟩
  · simp only [CircuitBreaker.execute, if_neg hrej, if_pos hopen,
      CircuitBreaker.onSuccess]
    exact ⟨trivial, trivial, trivial⟩
  · simp only [CircuitBreaker.execute, if_neg hrej, if_pos hopen,
      CircuitBreaker.onFailure, if_pos hth2]
    exact ⟨trivial, trivial, trivial⟩
  · intro hc
    simp [CircuitBreaker.new] at hc

/-- C4 witness: the health breaker (threshold 3, cooldown 30000) opened at
time 0, probed at time 30001. -/
theorem breaker_halfopen_trial_witness :
    (((⟨3, 0, .OPEN, 3, 30000⟩ : CircuitBreaker).execute 30001
        (fun _ => Except.ok ())).2.2 = true ∧
     ((⟨3, 0, .OPEN, 3, 30000⟩ : CircuitBreaker).execute 30001
        (fun _ => Except.ok ())).1.state = BreakerState.CLOSED ∧
     ((⟨3, 0, .OPEN, 3, 30000⟩ : CircuitBreaker).execute 30001
        (fun _ => Except.ok ())).1.failures = 0) ∧
    (((⟨3, 0, .OPEN, 3, 30000⟩ : CircuitBreaker).execute 30001
        (fun _ => Except.error networkError)).2.2 = true ∧
     ((⟨3, 0, .OPEN, 3, 30000⟩ : CircuitBreaker).execute 30001
        (fun _ => Except.error networkError)).1.state = BreakerState.OPEN ∧
     ((⟨3, 0, .OPEN, 3, 30000⟩ : CircuitBreaker).execute 30001
        (fun _ => Except.error networkError)).1.lastFailureTime = 30001) ∧
    (∀ c : CircuitBreaker, ∀ n : Nat, ∀ fn, CBInv c → CBInv (c.execute n fn).1) ∧
    CBInv (CircuitBreaker.new 3 30000) :=
  breaker_halfopen_trial ⟨3, 0, .OPEN, 3, 30000⟩ 30001 networkError rfl
    (by decide) (by decide)

/-- C7: a call rejected by an OPEN breaker inside its cooldown window never
invokes the wrapped operation and surfaces the circuit-open error value:
code `circuit_breaker_open`, with its `isRetryable` flag false (the
constructor default, the flag the retry loop consults). -/
theorem circuit_open_error_shape (cb : CircuitBreaker) (now : Nat)
    (fn : Unit → Except ApiErrorV Unit)
    (hopen : cb.state = .OPEN) (hcool : now - cb.lastFailureTime ≤ cb.timeout) :
    cb.execute now fn = (cb, Except.error circuitOpenError, false) ∧
    circuitOpenError.errorCode = some "circuit_breaker_open" ∧
    circuitOpenError.is_retryable = false := by
  have hrej : cb.state = .OPEN ∧ ¬ cb.timeout < now - cb.lastFailureTime :=
    ⟨hopen, by omega⟩
  exact ⟨by simp [CircuitBreaker.execute, hrej], rfl, rfl⟩

/-- C7 witness: a concrete OPEN breaker 1000 ms into its 30000 ms cooldown. -/
theorem circuit_open_error_shape_witness :
    (⟨3, 0, .OPEN, 3, 30000⟩ : CircuitBreaker).execute 1000
        (fun _ => Except.ok ()) =
      (⟨3, 0, .OPEN, 3, 30000⟩, Except.error circuitOpenError, false) ∧
    circuitOpenError.errorCode = some "circuit_breaker_open" ∧
    circuitOpenError.is_retryable = false :=
  circuit_open_error_shape ⟨3, 0, .OPEN, 3, 30000⟩ 1000 (fun _ => Except.ok ())
    rfl (by decide)

/-- C8: in the per-attempt race of the fetch against the deadline timer,
whichever settles first determines the outcome: if the deadline settles
first the attempt resolves to the `timeout` label and the loop surfaces
`TimeoutError`, whose retryable flag is true (and whose status 408 also
classifies retryable); if the fetch settles first, its own outcome stands. -/
theorem timeout_race_retryable (fetchSettleAt timeoutMs d : Nat)
    (fo : FetchOutcome) (h : timeoutMs < fetchSettleAt) :
    promiseRace fetchSettleAt fo timeoutMs = AttemptLabel.timeout ∧
    (apiRequest (fun _ => promiseRace fetchSettleAt fo timeoutMs) 0 d).1 =
      Except.error timeoutError ∧
    timeoutError.is_retryable = true ∧
    timeoutError.status = 408 ∧
    isRetryableStatus timeoutError.status = true ∧
    ∀ f2 t2 fo2, f2 ≤ t2 → promiseRace f2 fo2 t2 = labelOfFetch fo2 := by
  have hr : promiseRace fetchSettleAt fo timeoutMs = AttemptLabel.timeout := by
    simp [promiseRace, if_neg (by omega : ¬ fetchSettleAt ≤ timeoutMs)]
  refine ⟨hr, ?_, rfl, rfl, by decide, ?_⟩
  · simp [apiRequest, runFrom, hr]
  · intro f2 t2 fo2 hle
    simp [promiseRace, if_pos hle]

/-- C8 witness: a fetch that would settle at 6000 ms against a 5000 ms
deadline. -/
theorem timeout_race_retryable_witness :
    promiseRace 6000 FetchOutcome.netFail 5000 = AttemptLabel.timeout ∧
    (apiRequest (fun _ => promiseRace 6000 FetchOutcome.netFail 5000) 0 1000).1 =
      Except.error timeoutError ∧
    timeoutError.is_retryable = true ∧
    timeoutError.status = 408 ∧
    isRetryableStatus timeoutError.status = true ∧
    ∀ f2 t2 fo2, f2 ≤ t2 → promiseRace f2 fo2 t2 = labelOfFetch fo2 :=
  timeout_race_retryable 6000 5000 1000 FetchOutcome.netFail (by decide)

/-- C9 counterexample: a call hitting an OPEN breaker inside its cooldown
ultimately rejects (with the circuit-open error), yet the breaker's failure
count stays at 3 instead of being incremented to 4 and its last-failure
timestamp stays at 1000 instead of being updated to the call time 2000. -/
theorem rejected_call_counterexample :
    (clientCall ⟨3, 1000, .OPEN, 3, 30000⟩ 2000
      (fun _ => AttemptLabel.httpErr 500) 2 500).2.1 =
        Except.error circuitOpenError ∧
    (clientCall ⟨3, 1000, .OPEN, 3, 30000⟩ 2000
      (fun _ => AttemptLabel.httpErr 500) 2 500).1.failures = 3 ∧
    (3 : Nat) ≠ 3 + 1 ∧
    (clientCall ⟨3, 1000, .OPEN, 3, 30000⟩ 2000
      (fun _ => AttemptLabel.httpErr 500) 2 500).1.lastFailureTime = 1000 ∧
    (1000 : Nat) ≠ 2000 :=
  ⟨rfl, rfl, by decide, rfl, by decide⟩

/-- C9 (amended): every call the breaker admits (i.e. not rejected while
OPEN inside the cooldown) whose retry loop ultimately rejects increments
the breaker's failure count by exactly one and stamps `lastFailureTime`
with the call time, regardless of the error's kind or retryability — once
per completed call, however many network attempts the loop made; a call
the OPEN breaker rejects leaves both fields unchanged. -/
theorem admitted_failure_reports_once (cb : CircuitBreaker) (now : Nat)
    (res : Nat → AttemptLabel) (retries d : Nat) (e : ApiErrorV)
    (hadm : ¬ (cb.state = .OPEN ∧ ¬ cb.timeout < now - cb.lastFailureTime))
    (hfail : (apiRequest res retries d).1 = Except.error e) :
    (clientCall cb now res retries d).1.failures = cb.failures + 1 ∧
    (clientCall cb now res retries d).1.lastFailureTime = now ∧
    (clientCall cb now res retries d).2.1 = Except.error e ∧
    (clientCall cb now res retries d).2.2 = (apiRequest res retries d).2.1 := by
  by_cases hop : cb.state = .OPEN
  · simp only [clientCall, CircuitBreaker.execute, if_neg hadm, if_pos hop,
      hfail, CircuitBreaker.onFailure, if_true]
    exact ⟨trivial, trivial, trivial, trivial⟩
  · simp only [clientCall, CircuitBreaker.execute, if_neg hadm, if_neg hop,
      hfail, CircuitBreaker.onFailure, if_true]
    exact ⟨trivial, trivial, trivial, trivial⟩

/-- C9 witness: a single non-retryable HTTP 400 client error on a fresh
breaker: one attempt, and the failure count still steps from 0 to 1 —
non-retryable failures do count toward the opening threshold. -/
theorem admitted_failure_reports_once_witness :
    (clientCall (CircuitBreaker.new 3 30000) 100
      (fun _ => AttemptLabel.httpErr 400) 3 1000).1.failures =
        (CircuitBreaker.new 3 30000).failures + 1 ∧
    (clientCall (CircuitBreaker.new 3 30000) 100
      (fun _ => AttemptLabel.httpErr 400) 3 1000).1.lastFailureTime = 100 ∧
    (clientCall (CircuitBreaker.new 3 30000) 100
      (fun _ => AttemptLabel.httpErr 400) 3 1000).2.1 =
        Except.error (httpStatusError 400) ∧
    (clientCall (CircuitBreaker.new 3 30000) 100
      (fun _ => AttemptLabel.httpErr 400) 3 1000).2.2 =
        (apiRequest (fun _ => AttemptLabel.httpErr 400) 3 1000).2.1 :=
  admitted_failure_reports_once (CircuitBreaker.new 3 30000) 100
    (fun _ => AttemptLabel.httpErr 400) 3 1000 (httpStatusError 400)
    (by intro hc; exact absurd hc.1 (by decide)) rfl

/-- C10: the connectivity monitor's effect probes health immediately on
every transition to online and registers a 30000 ms interval, so during an
online stretch beginning at `onlineAt` it checks exactly at `onlineAt` and
at `onlineAt + 30000 * k` for `k ≥ 1`; while offline it makes no immediate
probe and registers no interval (it only marks the API unhealthy). -/
theorem connection_monitor_schedule :
    ((connectionEffect true).immediateCheck = true ∧
     (connectionEffect true).intervalMs = some 30000 ∧
     (connectionEffect false).immediateCheck = false ∧
     (connectionEffect false).intervalMs = none ∧
     (connectionEffect false).setsApiHealthyFalse = true) ∧
    ∀ onlineAt t : Nat,
      monitorChecksAt onlineAt t ↔
        t = onlineAt ∨ ∃ k, 0 < k ∧ t = onlineAt + 30000 * k := by
  refine ⟨⟨rfl, rfl, rfl, rfl, rfl⟩, ?_⟩
  intro onlineAt t
  simp [monitorChecksAt, connectionEffect, setIntervalFires]

end Pota
